import Mathlib

/-!
# Verification of the Villa-RAG document ingestion and retrieval pipeline

A shallow embedding of the core of the repository: the free document
processor (`src/lib/rag/free-document-processor.ts`), the knowledge base
store (`KnowledgeBase` in `src/lib/rag/knowledge-base.ts`, shipped inside
`src/lib/ai/tools/search-knowledge.ts`), the search tool boundary
(`searchKnowledgeTool.execute`), and the persisted layout of
`src/lib/db/migrations/0007_charming_cargill.sql`.

JavaScript numbers are modelled with `ℤ`, `ℚ` and `ℝ` with explicit 32-bit
wraparound where the source relies on it; database rows are lists; the
external collaborators (HuggingFace inference, pdf2json, tesseract, the
Postgres vector operator) are oracles passed in as arguments.
-/

/-! ## JavaScript numeric primitives -/

/-- JavaScript `ToInt32`: reduce an integer into `[-2^31, 2^31)`.  This is
what `x & x` and the operands of `<<` compute on an integral value. -/
def toInt32 (a : ℤ) : ℤ := (a + 2147483648) % 4294967296 - 2147483648

/-- `toInt32` only depends on the residue modulo `2^32`. -/
theorem toInt32_congr {a b : ℤ} (h : a % 4294967296 = b % 4294967296) :
    toInt32 a = toInt32 b := by
  unfold toInt32; omega

/-- `toInt32` preserves the residue modulo `2^32`. -/
theorem toInt32_emod (a : ℤ) : toInt32 a % 4294967296 = a % 4294967296 := by
  unfold toInt32; omega

/-- JavaScript `Math.round`: round half towards positive infinity. -/
def jsRound (x : ℚ) : ℤ := ⌊x + 1/2⌋

/-- JavaScript truncation towards zero, used by the `%` operator. -/
noncomputable def jsTrunc (x : ℝ) : ℤ := if 0 ≤ x then ⌊x⌋ else -⌊-x⌋

/-- JavaScript `%` on numbers: `x - y * trunc (x / y)` (sign follows `x`). -/
noncomputable def jsFmod (x y : ℝ) : ℝ := x - y * ((jsTrunc (x / y) : ℤ) : ℝ)

/-- JavaScript `String.prototype.toLowerCase` restricted to ASCII, which is
all the source ever lowercases (declared file kinds). -/
def jsToLower (s : String) : String := String.mk (s.data.map Char.toLower)

/-- JavaScript `String.prototype.trim` on the character list. -/
def jsTrim (s : String) : String :=
  String.mk (((s.data.dropWhile Char.isWhitespace).reverse.dropWhile
    Char.isWhitespace).reverse)

/-! ## The deterministic hash-based fallback embedding

`FreeDocumentProcessor.createHashBasedEmbedding`
(`src/lib/rag/free-document-processor.ts:261-279`):

    let hash = 0;
    for (let i = 0; i < text.length; i++) {
      hash = (hash << 5) - hash + text.charCodeAt(i);
      hash = hash & hash; // Convert to 32-bit integer
    }
    for (let i = 0; i < 384; i++) {
      const seed = hash + i;
      embedding[i] = (Math.sin(seed) * 43758.5453) % 1;
    }
-/

/-- One iteration of the hash loop: `hash = (hash << 5) - hash + c` followed
by `hash = hash & hash`, i.e. `toInt32 (toInt32 (32*h) - h + c)`. -/
def jsHashStep (h : ℤ) (c : ℕ) : ℤ := toInt32 (toInt32 (32 * h) - h + c)

/-- The hash of the whole text as the source computes it. -/
def jsHash (text : String) : ℤ :=
  text.data.foldl (fun h ch => jsHashStep h ch.toNat) 0

/-- The polynomial rolling hash with a single 32-bit wraparound at the end,
as the spec words it: the base-31 polynomial of the character codes. -/
def polyHash (text : String) : ℤ :=
  toInt32 (text.data.foldl (fun h ch => 31 * h + ch.toNat) 0)

theorem jsHashStep_eq (h : ℤ) (c : ℕ) : jsHashStep h c = toInt32 (31 * h + c) := by
  unfold jsHashStep
  refine toInt32_congr ?_
  have h32 := toInt32_emod (32 * h)
  omega

/-- The plain polynomial fold is congruent modulo `2^32` in its accumulator. -/
theorem polyFold_congr (l : List Char) :
    ∀ {a b : ℤ}, a % 4294967296 = b % 4294967296 →
      (l.foldl (fun h ch => 31 * h + (ch.toNat : ℤ)) a) % 4294967296 =
      (l.foldl (fun h ch => 31 * h + (ch.toNat : ℤ)) b) % 4294967296 := by
  induction l with
  | nil => intro a b h; simpa using h
  | cons ch t ih =>
    intro a b h
    simp only [List.foldl_cons]
    refine ih ?_
    generalize ((ch.toNat : ℤ)) = c
    omega

/-- Folding with a wraparound at every step equals a single wraparound of the
plain polynomial fold. -/
theorem fold32_eq (l : List Char) :
    ∀ b : ℤ, l.foldl (fun h ch => toInt32 (31 * h + (ch.toNat : ℤ))) (toInt32 b) =
      toInt32 (l.foldl (fun h ch => 31 * h + (ch.toNat : ℤ)) b) := by
  induction l with
  | nil => intro b; rfl
  | cons ch t ih =>
    intro b
    simp only [List.foldl_cons]
    rw [ih]
    refine toInt32_congr (polyFold_congr t ?_)
    have hb := toInt32_emod b
    generalize ((ch.toNat : ℤ)) = c at hb ⊢
    omega

/-- The loop hash of the source is exactly the one-shot polynomial rolling
hash with 32-bit wraparound. -/
theorem jsHash_eq_polyHash (text : String) : jsHash text = polyHash text := by
  unfold jsHash polyHash
  have hf : (fun (h : ℤ) (ch : Char) => jsHashStep h ch.toNat) =
      fun (h : ℤ) (ch : Char) => toInt32 (31 * h + (ch.toNat : ℤ)) := by
    funext h ch
    exact jsHashStep_eq h ch.toNat
  rw [hf]
  have h0 : (0 : ℤ) = toInt32 0 := by unfold toInt32; omega
  have hfold := fold32_eq text.data 0
  rw [← h0] at hfold
  exact hfold

/-- Component `i` of the fallback vector:
`(Math.sin(hash + i) * 43758.5453) % 1`. -/
noncomputable def hashComponent (hash : ℤ) (i : ℕ) : ℝ :=
  jsFmod (Real.sin (((hash + i : ℤ) : ℝ)) * 43758.5453) 1

/-- `FreeDocumentProcessor.createHashBasedEmbedding`: a 384-component vector
whose `i`-th component is derived from the loop hash of the text. -/
noncomputable def createHashBasedEmbedding (text : String) : List ℝ :=
  (List.range 384).map (hashComponent (jsHash text))

theorem createHashBasedEmbedding_length (text : String) :
    (createHashBasedEmbedding text).length = 384 := by
  simp [createHashBasedEmbedding]

/-- **C4**: the hash-based fallback embedding is a deterministic pure function
of the text: repeated calls agree, the vector has exactly 384 components, and
component `i` is `sin(hash + i) * 43758.5453` reduced modulo 1 (JavaScript
`%`), where `hash` is the base-31 polynomial rolling hash of the character
codes with 32-bit wraparound. -/
theorem createHashBasedEmbedding_spec (text : String) :
    (createHashBasedEmbedding text).length = 384 ∧
    createHashBasedEmbedding text = createHashBasedEmbedding text ∧
    ∀ i : ℕ, i < 384 →
      (createHashBasedEmbedding text)[i]? =
        some (jsFmod (Real.sin (((polyHash text + i : ℤ) : ℝ)) * 43758.5453) 1) := by
  refine ⟨createHashBasedEmbedding_length text, rfl, ?_⟩
  intro i hi
  unfold createHashBasedEmbedding
  rw [List.getElem?_map, List.getElem?_range hi]
  simp [hashComponent, jsHash_eq_polyHash]

/-- Witness for C4 at the concrete text `"a"` and component `0`. -/
theorem createHashBasedEmbedding_spec_witness :
    (createHashBasedEmbedding "a")[0]? =
      some (jsFmod (Real.sin (((polyHash "a" + 0 : ℤ) : ℝ)) * 43758.5453) 1) :=
  (createHashBasedEmbedding_spec "a").2.2 0 (by norm_num)

/-! ## The embedding backend boundary

`this.hf.featureExtraction({model, inputs})` may throw (modelled as `none`)
or return either a flat vector or a nested array of vectors; the source
flattens with `Array.isArray(embedding[0]) ? embedding[0] : embedding`. -/

/-- A successful HuggingFace `featureExtraction` response. -/
inductive HFResult (α : Type) where
  | flat (v : List α)
  | nested (vs : List (List α))
deriving DecidableEq

/-- `Array.isArray(embedding[0]) ? embedding[0] : embedding`.  An empty
nested response has `embedding[0] === undefined`, so the empty array itself
is returned. -/
def flattenEmbedding {α : Type} : HFResult α → List α
  | .flat v => v
  | .nested vs => vs.headD []

/-- `FreeDocumentProcessor.embedQuery`
(`src/lib/rag/free-document-processor.ts:228-259`): try the configured
models in order (`attempts` holds each model's outcome, in order); the first
success is flattened and returned; when every model fails, the thrown
`All query embedding models failed` is caught and the deterministic
hash-based embedding of the query is returned instead. -/
noncomputable def embedQuery (attempts : List (Option (HFResult ℝ)))
    (query : String) : List ℝ :=
  match attempts.findSome? id with
  | some r => flattenEmbedding r
  | none => createHashBasedEmbedding query

/-! ## The chunker -/

/-- Modelled from the spec: the Chunker (`RecursiveCharacterTextSplitter`
from langchain, configured in `FreeDocumentProcessor` with chunk size 1000,
overlap 200 and separators paragraph break, line break, sentence end, space,
character) is library code not present in this repository.  Following §4.2
of the spec: empty text yields no chunks; text no longer than one chunk
yields exactly one chunk equal to the whole text; longer text is split into
segments of at most 1000 characters with adjacent segments overlapping by
200 characters (the separator-preference refinement of the general case is
abstracted to the hard character split, the final separator of the cascade;
no property proved in this file depends on it). -/
def splitText (text : String) : List String :=
  if text.length = 0 then []
  else if text.length ≤ 1000 then [text]
  else
    (List.range ((text.length - 200 + 799) / 800)).map fun k =>
      String.mk ((text.data.drop (k * 800)).take 1000)

/-- A map that also passes the element's position, as
`array.map((x, i) => ...)` does. -/
def mapWithIndex {α β : Type} (f : ℕ → α → β) (l : List α) : List β :=
  l.enum.map fun p => f p.1 p.2

theorem length_mapWithIndex {α β : Type} (f : ℕ → α → β) (l : List α) :
    (mapWithIndex f l).length = l.length := by
  simp [mapWithIndex]

theorem getElem?_mapWithIndex {α β : Type} (f : ℕ → α → β) (l : List α)
    (i : ℕ) : (mapWithIndex f l)[i]? = l[i]?.map (f i) := by
  unfold mapWithIndex
  rw [List.getElem?_map, List.getElem?_enum]
  cases l[i]? <;> rfl

/-! ## Ingestion: chunks, PDF extraction, document processing -/

/-- The per-chunk `metadata` JSON: `filename`, `chunkLength`, `totalChunks`
and, on the fallback path only, `fallback: true`. -/
structure ChunkMeta where
  filename : String
  chunkLength : ℕ
  totalChunks : ℕ
  fallback : Bool
deriving DecidableEq

/-- The `DocumentChunk` interface of the processor (not yet a DB row). -/
structure ChunkData (E : Type) where
  content : String
  embedding : E
  chunkIndex : ℕ
  metadata : ChunkMeta
deriving DecidableEq

/-- The metadata of a `ProcessedDocument`. -/
structure ProcessedMeta where
  filename : String
  fileType : String
  fileSize : ℕ
  totalChunks : ℕ
deriving DecidableEq

/-- The `ProcessedDocument` interface. -/
structure ProcessedDocument (E : Type) where
  content : String
  chunks : List (ChunkData E)
  metadata : ProcessedMeta
deriving DecidableEq

/-- `FreeDocumentProcessor.createChunks`
(`src/lib/rag/free-document-processor.ts:152-226`): split the content, then
for each chunk try the configured models (`oracle i` holds the outcomes of
the tries for chunk `i`); on the first success push the flattened embedding
with plain metadata; when every model fails the thrown error is caught and
the chunk is pushed with the deterministic hash-based embedding of its own
text and `fallback: true` in its metadata. -/
noncomputable def createChunks (oracle : ℕ → List (Option (HFResult ℝ)))
    (content filename : String) : List (ChunkData (List ℝ)) :=
  let textChunks := splitText content
  mapWithIndex (fun i c =>
    match (oracle i).findSome? id with
    | some r => ⟨c, flattenEmbedding r, i, ⟨filename, c.length, textChunks.length, false⟩⟩
    | none => ⟨c, createHashBasedEmbedding c, i,
        ⟨filename, c.length, textChunks.length, true⟩⟩) textChunks

/-- The outcome of `pdf2json` on a buffer: either the `pdfParser_dataError`
event, or `pdfParser_dataReady` with `pdfData.Pages` (possibly absent), each
page holding its `Texts`, each text item its runs' decoded `T` strings. -/
inductive PdfParse where
  | dataError
  | dataReady (pages : Option (List (List (List String))))

/-- The text accumulation loop of `processPDF`: for every page, for every
text item, for every run append the decoded text and a space; after each
page append a newline. -/
def extractPdfText : Option (List (List (List String))) → String
  | none => ""
  | some pages =>
    pages.foldl (fun acc page =>
      (page.foldl (fun a item =>
        item.foldl (fun b run => b ++ run ++ " ") a) acc) ++ "\n") ""

/-- The placeholder substituted when a parsed PDF yields no text. -/
def emptyPdfMessage (byteSize : ℕ) : String :=
  "[PDF Content] - This PDF appears to be empty or contains only images. File size: "
    ++ toString byteSize ++ " bytes."

/-- `FreeDocumentProcessor.processPDF`
(`src/lib/rag/free-document-processor.ts:73-128`): a parser error rejects
with `Failed to parse PDF`; on success the accumulated text is trimmed and,
when empty, replaced by a human-readable placeholder naming the byte size. -/
def processPDF (byteSize : ℕ) : PdfParse → Except String String
  | .dataError => .error "Failed to parse PDF"
  | .dataReady pages =>
    let cleanText := jsTrim (extractPdfText pages)
    if cleanText.length = 0 then .ok (emptyPdfMessage byteSize)
    else .ok cleanText

/-- `FreeDocumentProcessor.processDocument`
(`src/lib/rag/free-document-processor.ts:38-71`): dispatch on the lowercased
declared kind (`pdf` extraction, `txt` UTF-8 decode, `image` OCR via the
`ocr` oracle); any other kind throws `Unsupported file type`; then chunk and
embed the extracted content.  `buffer` is the UTF-8 decode of the uploaded
bytes and `byteSize` the byte count `buffer.length`. -/
noncomputable def processDocument (buffer : String) (byteSize : ℕ)
    (pdf : PdfParse) (ocr : Except String String)
    (oracle : ℕ → List (Option (HFResult ℝ)))
    (filename fileType : String) : Except String (ProcessedDocument (List ℝ)) :=
  let contentE : Except String String :=
    if jsToLower fileType = "pdf" then processPDF byteSize pdf
    else if jsToLower fileType = "txt" then .ok buffer
    else if jsToLower fileType = "image" then ocr
    else .error ("Unsupported file type: " ++ fileType)
  match contentE with
  | .error e => .error e
  | .ok content =>
    let chunks := createChunks oracle content filename
    .ok ⟨content, chunks, ⟨filename, fileType, byteSize, chunks.length⟩⟩

/-! ## The persisted layout and the `KnowledgeBase` store

`KnowledgeDocument` and `DocumentChunk` as created by
`src/lib/db/migrations/0007_charming_cargill.sql`, with the
`DocumentChunk_documentId_KnowledgeDocument_id_fk` foreign key declared
`ON DELETE cascade`.  Row ids and timestamps that the database generates are
passed in as arguments. -/

/-- A `KnowledgeDocument` row. -/
structure DocRow where
  id : String
  title : String
  filename : String
  fileType : String
  content : String
  fileSize : ℕ
  uploadedAt : ℕ
  userId : String
deriving DecidableEq

/-- A `DocumentChunk` row (the generated `id` and `createdAt` are never read
by the source and are omitted). -/
structure ChunkRow (E : Type) where
  documentId : String
  content : String
  embedding : E
  chunkIndex : ℕ
  metadata : ChunkMeta
deriving DecidableEq

/-- The visible database state: the two tables. -/
structure KBState (E : Type) where
  documents : List DocRow
  chunks : List (ChunkRow E)
deriving DecidableEq

/-- A `SearchResult` of `KnowledgeBase.searchSimilar`. -/
structure SearchResult (E : Type) where
  chunk : ChunkRow E
  document : DocRow
  similarity : ℚ
deriving DecidableEq

/-! ### Sorting (`ORDER BY key DESC`) -/

/-- Insert into a list that is descending by `key`. -/
def insertDesc {α : Type} (key : α → ℚ) (a : α) : List α → List α
  | [] => [a]
  | b :: l => if key b < key a then a :: b :: l else b :: insertDesc key a l

/-- Insertion sort, descending by `key`: the semantics of `ORDER BY _ DESC`. -/
def sortDesc {α : Type} (key : α → ℚ) : List α → List α
  | [] => []
  | a :: l => insertDesc key a (sortDesc key l)

theorem mem_insertDesc {α : Type} (key : α → ℚ) (a x : α) (l : List α) :
    x ∈ insertDesc key a l ↔ x = a ∨ x ∈ l := by
  induction l with
  | nil => simp [insertDesc]
  | cons b t ih =>
    by_cases h : key b < key a
    · simp [insertDesc, h]
    · simp [insertDesc, h, ih]
      tauto

theorem mem_sortDesc {α : Type} (key : α → ℚ) (x : α) (l : List α) :
    x ∈ sortDesc key l ↔ x ∈ l := by
  induction l with
  | nil => simp [sortDesc]
  | cons a t ih => simp [sortDesc, mem_insertDesc, ih]

theorem length_insertDesc {α : Type} (key : α → ℚ) (a : α) (l : List α) :
    (insertDesc key a l).length = l.length + 1 := by
  induction l with
  | nil => rfl
  | cons b t ih =>
    by_cases h : key b < key a
    · simp [insertDesc, h]
    · simp [insertDesc, h, ih]

theorem length_sortDesc {α : Type} (key : α → ℚ) (l : List α) :
    (sortDesc key l).length = l.length := by
  induction l with
  | nil => rfl
  | cons a t ih => simp [sortDesc, length_insertDesc, ih]

/-! ### The store operations -/

/-- The `INNER JOIN` of `DocumentChunk` with `KnowledgeDocument` on
`documentChunk.documentId = knowledgeDocument.id`. -/
def joinRows {E : Type} (st : KBState E) : List (ChunkRow E × DocRow) :=
  st.chunks.flatMap fun c =>
    (st.documents.filter fun d => c.documentId == d.id).map fun d => (c, d)

/-- `KnowledgeBase.searchSimilar`
(`src/lib/ai/tools/search-knowledge.ts:310-354` of the bundled
knowledge-base module): embed the query (the embedding only enters through
the database's cosine-distance operator, modelled by the oracle `dist`
giving each stored embedding's distance to the query vector), keep joined
rows whose similarity `1 - dist` strictly exceeds the threshold and — only
when a `userId` was supplied — whose document belongs to it, order by
similarity descending and truncate to `limit` rows. -/
def searchSimilar {E : Type} (st : KBState E) (dist : E → ℚ) (limit : ℕ)
    (similarityThreshold : ℚ) (userId : Option String) : List (SearchResult E) :=
  let rows := joinRows st
  let filtered := rows.filter fun cd =>
    decide (similarityThreshold < 1 - dist cd.1.embedding) &&
      (match userId with
       | none => true
       | some u => cd.2.userId == u)
  let ordered := sortDesc (fun cd => 1 - dist cd.1.embedding) filtered
  (ordered.take limit).map fun cd => ⟨cd.1, cd.2, 1 - dist cd.1.embedding⟩

/-- `KnowledgeBase.getDocuments`: the caller's documents, newest first. -/
def getDocuments {E : Type} (st : KBState E) (userId : String) : List DocRow :=
  sortDesc (fun d => (d.uploadedAt : ℚ))
    (st.documents.filter fun d => d.userId == userId)

/-- `KnowledgeBase.deleteDocument`
(`src/lib/ai/tools/search-knowledge.ts:364-370` of the bundled module):
`DELETE FROM "KnowledgeDocument" WHERE id = $1 AND userId = $2`.  The
`ON DELETE cascade` foreign key removes every chunk that referenced a
deleted document row. -/
def deleteDocument {E : Type} (st : KBState E) (documentId userId : String) :
    KBState E :=
  ⟨st.documents.filter fun d => !(d.id == documentId && d.userId == userId),
   st.chunks.filter fun c =>
     !(st.documents.any fun d =>
        d.id == documentId && d.userId == userId && c.documentId == d.id)⟩

/-- `KnowledgeBase.getDocumentChunks`: the chunks of one document, ordered
by `chunkIndex` ascending (descending order on the negated index). -/
def getDocumentChunks {E : Type} (st : KBState E) (documentId : String) :
    List (ChunkRow E) :=
  sortDesc (fun c => -(c.chunkIndex : ℚ))
    (st.chunks.filter fun c => c.documentId == documentId)

/-- The chunk-insertion loop of `addDocument` and `reprocessDocument`: each
chunk is a separate `INSERT` statement.  `failAt = some i` models the
database failing on the `i`-th chunk insert (counted from `start`); the
returned flag is false when the loop ended in a thrown error, and the state
reflects every insert that committed before the failure. -/
def insertChunksFrom {E : Type} (docId : String) (failAt : Option ℕ) :
    ℕ → List (ChunkData E) → KBState E → Bool × KBState E
  | _, [], st => (true, st)
  | i, c :: rest, st =>
    if failAt = some i then (false, st)
    else insertChunksFrom docId failAt (i + 1) rest
      ⟨st.documents, st.chunks ++ [⟨docId, c.content, c.embedding, c.chunkIndex, c.metadata⟩]⟩

/-- `KnowledgeBase.addDocument`
(`src/lib/ai/tools/search-knowledge.ts:266-308` of the bundled module):
process the upload (`proc` is the processor's outcome), `INSERT` the
`KnowledgeDocument` row (its generated id is `newId`, its `uploadedAt`
default is `now`), then `INSERT` each chunk in a plain loop — there is no
surrounding transaction, so every statement commits on its own.  Any error
is caught, logged and rethrown as `Failed to add document to knowledge
base`; the function returns the error together with the state the database
was actually left in. -/
def addDocument {E : Type} (st : KBState E)
    (proc : Except String (ProcessedDocument E)) (newId : String) (now : ℕ)
    (failAt : Option ℕ) (filename fileType title userId : String) :
    Except String DocRow × KBState E :=
  match proc with
  | .error _ => (.error "Failed to add document to knowledge base", st)
  | .ok p =>
    let doc : DocRow :=
      ⟨newId, title, filename, fileType, p.content, p.metadata.fileSize, now, userId⟩
    let st1 : KBState E := ⟨st.documents ++ [doc], st.chunks⟩
    match insertChunksFrom newId failAt 0 p.chunks st1 with
    | (true, st2) => (.ok doc, st2)
    | (false, st2) => (.error "Failed to add document to knowledge base", st2)

/-- The replacement content written by `reprocessDocument`: the original
bytes were not retained, so the content is an explanatory placeholder. -/
def reprocessPlaceholder (filename : String) : String :=
  "This document (" ++ filename ++
    ") needs to be re-uploaded to extract its content properly. The PDF text extraction has been improved and will now work correctly for new uploads."

/-- `KnowledgeBase.reprocessDocument`
(`src/lib/ai/tools/search-knowledge.ts:380-429` of the bundled module):
look the document up scoped to the owner (`SELECT ... WHERE id = $1 AND
userId = $2 LIMIT 1`); when absent throw `Document not found or access
denied`, which the surrounding catch rethrows as `Failed to reprocess
document`.  When present: delete the document's chunks, overwrite its
content with the placeholder (no re-extraction from the original bytes),
run the processor on the placeholder as `txt`, and insert the regenerated
chunks.  The chunk re-inserts are modelled without failure injection (the
happy path; C2 covers the non-atomicity of the insert loop). -/
noncomputable def reprocessDocument (st : KBState (List ℝ))
    (oracle : ℕ → List (Option (HFResult ℝ))) (documentId userId : String) :
    Except String (KBState (List ℝ)) :=
  match st.documents.find? (fun d => d.id == documentId && d.userId == userId) with
  | none => .error "Failed to reprocess document"
  | some document =>
    let content := reprocessPlaceholder document.filename
    let afterDelete := st.chunks.filter fun c => !(c.documentId == documentId)
    match processDocument content content.utf8ByteSize .dataError (.ok "")
        oracle document.filename "txt" with
    | .error _ => .error "Failed to reprocess document"
    | .ok processed =>
      .ok ⟨st.documents.map (fun d =>
             if d.id == documentId then
               ⟨d.id, d.title, d.filename, d.fileType, content, d.fileSize,
                d.uploadedAt, d.userId⟩
             else d),
           afterDelete ++ processed.chunks.map (fun c =>
             ⟨document.id, c.content, c.embedding, c.chunkIndex, c.metadata⟩)⟩

/-! ## The search tool boundary

`searchKnowledgeTool.execute` (`src/lib/ai/tools/search-knowledge.ts:21-80`). -/

/-- One entry of the per-result breakdown returned on success. -/
structure ToolResultEntry where
  rank : ℕ
  content : String
  source : String
  filename : String
  similarity : ℤ
deriving DecidableEq

/-- The value returned by `searchKnowledgeTool.execute` (the optional
`content`, `sources` and `totalChunks` keys are only present on success). -/
structure ToolResponse where
  success : Bool
  message : String
  results : List ToolResultEntry
  content : Option String
  sources : List String
  totalChunks : Option ℕ
deriving DecidableEq

/-- `[...new Set(l)]`: deduplicate keeping first occurrences, in order. -/
def jsSetDedup (l : List String) : List String :=
  l.foldl (fun acc t => if t ∈ acc then acc else acc ++ [t]) []

/-- `searchKnowledgeTool.execute`: authenticate (`session` is the session's
user id when logged in), call `searchSimilar(query, limit, 0.2, userId)`
(`searchFails` models `searchSimilar` throwing, e.g. on a database error —
its own catch rethrows `Failed to search knowledge base`, which the tool's
catch-all turns into a structured failure), and shape the response.  Every
path returns a value; nothing escapes the boundary. -/
def executeSearchTool {E : Type} (session : Option String) (st : KBState E)
    (dist : E → ℚ) (searchFails : Bool) (query : String) (limit : ℕ) :
    ToolResponse :=
  match session with
  | none => ⟨false, "Authentication required", [], none, [], none⟩
  | some userId =>
    if searchFails then
      ⟨false, "Error searching documents", [], none, [], none⟩
    else
      let results := searchSimilar st dist limit (1/5) (some userId)
      if results.isEmpty then
        ⟨false, "No relevant information found in uploaded documents.", [],
         none, [], none⟩
      else
        let allContent := String.intercalate "\n\n"
          (results.map fun r => r.chunk.content)
        let sources := jsSetDedup (results.map fun r => r.document.title)
        ⟨true,
         "Found detailed information from " ++ toString sources.length
           ++ " document(s)",
         mapWithIndex (fun i r =>
           ⟨i + 1, r.chunk.content, r.document.title, r.document.filename,
            jsRound (r.similarity * 100)⟩) results,
         some allContent, sources, some results.length⟩

/-! ## Helper lemmas -/

theorem findSome?_id_mem {α : Type} :
    ∀ {l : List (Option α)} {r : α}, l.findSome? id = some r → some r ∈ l := by
  intro l
  induction l with
  | nil => intro r h; simp [List.findSome?] at h
  | cons a t ih =>
    intro r h
    cases a with
    | none =>
      have ht : t.findSome? id = some r := by
        simpa [List.findSome?_cons] using h
      exact List.mem_cons_of_mem _ (ih ht)
    | some b =>
      have hb : b = r := by simpa [List.findSome?_cons] using h
      simp [hb]

theorem string_length_eq_zero_iff (s : String) : s.length = 0 ↔ s = "" := by
  cases s with
  | mk data =>
    constructor
    · intro h
      have hd : data = [] := List.length_eq_zero.mp h
      subst hd
      rfl
    · intro h
      rw [h]
      rfl

/-! ## The claims -/

/-- **C1**: for every call `search(q, limit, threshold, owner)` with an
owner supplied, at most `limit` results come back, and every returned
result has similarity strictly above `threshold` and pairs a chunk with its
own parent document, owned by `owner`. -/
theorem searchSimilar_threshold_limit_owner {E : Type} (st : KBState E)
    (dist : E → ℚ) (limit : ℕ) (threshold : ℚ) (owner : String) :
    (searchSimilar st dist limit threshold (some owner)).length ≤ limit ∧
    ∀ r ∈ searchSimilar st dist limit threshold (some owner),
      threshold < r.similarity ∧ r.document.userId = owner ∧
        r.chunk.documentId = r.document.id := by
  constructor
  · simp only [searchSimilar, List.length_map, List.length_take]
    exact min_le_left _ _
  · intro r hr
    simp only [searchSimilar, List.mem_map] at hr
    obtain ⟨cd, hcd, hr⟩ := hr
    have hord := List.mem_of_mem_take hcd
    rw [mem_sortDesc] at hord
    rw [List.mem_filter] at hord
    obtain ⟨hrows, hpred⟩ := hord
    rw [Bool.and_eq_true] at hpred
    obtain ⟨hthr, hown⟩ := hpred
    have hthr' : threshold < 1 - dist cd.1.embedding := of_decide_eq_true hthr
    have hown' : cd.2.userId = owner := by simpa using hown
    have hjoin : cd.1.documentId = cd.2.id := by
      simp only [joinRows, List.mem_flatMap, List.mem_map, List.mem_filter] at hrows
      obtain ⟨c, _, d, ⟨_, hdid⟩, hcd2⟩ := hrows
      have h1 : cd.1 = c := by rw [← hcd2]
      have h2 : cd.2 = d := by rw [← hcd2]
      rw [h1, h2]
      simpa using hdid
    subst hr
    exact ⟨hthr', hown', hjoin⟩

/-- Witness for C1: a one-document, one-chunk store owned by `U1`. -/
theorem searchSimilar_threshold_limit_owner_witness :
    (searchSimilar
        (⟨[⟨"D1", "T", "f.txt", "txt", "hello", 5, 0, "U1"⟩],
          [⟨"D1", "hello", (), 0, ⟨"f.txt", 5, 1, false⟩⟩]⟩ : KBState Unit)
        (fun _ => 0) 5 (1/2) (some "U1")).length ≤ 5 ∧
    ((1 : ℚ)/2 <
        (⟨⟨"D1", "hello", (), 0, ⟨"f.txt", 5, 1, false⟩⟩,
          ⟨"D1", "T", "f.txt", "txt", "hello", 5, 0, "U1"⟩, 1⟩ :
            SearchResult Unit).similarity ∧
      (⟨⟨"D1", "hello", (), 0, ⟨"f.txt", 5, 1, false⟩⟩,
        ⟨"D1", "T", "f.txt", "txt", "hello", 5, 0, "U1"⟩, 1⟩ :
          SearchResult Unit).document.userId = "U1" ∧
      (⟨⟨"D1", "hello", (), 0, ⟨"f.txt", 5, 1, false⟩⟩,
        ⟨"D1", "T", "f.txt", "txt", "hello", 5, 0, "U1"⟩, 1⟩ :
          SearchResult Unit).chunk.documentId =
        (⟨⟨"D1", "hello", (), 0, ⟨"f.txt", 5, 1, false⟩⟩,
          ⟨"D1", "T", "f.txt", "txt", "hello", 5, 0, "U1"⟩, 1⟩ :
            SearchResult Unit).document.id) :=
  ⟨(searchSimilar_threshold_limit_owner
      (⟨[⟨"D1", "T", "f.txt", "txt", "hello", 5, 0, "U1"⟩],
        [⟨"D1", "hello", (), 0, ⟨"f.txt", 5, 1, false⟩⟩]⟩ : KBState Unit)
      (fun _ => 0) 5 (1/2) "U1").1,
   (searchSimilar_threshold_limit_owner
      (⟨[⟨"D1", "T", "f.txt", "txt", "hello", 5, 0, "U1"⟩],
        [⟨"D1", "hello", (), 0, ⟨"f.txt", 5, 1, false⟩⟩]⟩ : KBState Unit)
      (fun _ => 0) 5 (1/2) "U1").2
     (⟨⟨"D1", "hello", (), 0, ⟨"f.txt", 5, 1, false⟩⟩,
       ⟨"D1", "T", "f.txt", "txt", "hello", 5, 0, "U1"⟩, 1⟩ :
         SearchResult Unit)
     (by norm_num [searchSimilar, joinRows, sortDesc, insertDesc])⟩

/-- **C10**: the `userId` argument of `searchSimilar` is optional; when it
is omitted no owner condition enters the query — the result is exactly the
threshold-filtered, similarity-ordered, truncated join, with no owner
restriction — and the results may then include chunks of documents of any
owner (here a document of `U2` comes back from an ownerless call, while the
same store searched as `U1` returns nothing). -/
theorem searchSimilar_optional_owner :
    (∀ (E : Type) (st : KBState E) (dist : E → ℚ) (limit : ℕ) (thr : ℚ),
      searchSimilar st dist limit thr none =
        ((sortDesc (fun cd => 1 - dist cd.1.embedding)
            ((joinRows st).filter fun cd =>
              decide (thr < 1 - dist cd.1.embedding))).take limit).map
          fun cd => ⟨cd.1, cd.2, 1 - dist cd.1.embedding⟩) ∧
    (∃ r ∈ searchSimilar
        (⟨[⟨"D2", "T2", "g.txt", "txt", "hi", 2, 0, "U2"⟩],
          [⟨"D2", "hi", (), 0, ⟨"g.txt", 2, 1, false⟩⟩]⟩ : KBState Unit)
        (fun _ => 0) 5 0 none, r.document.userId = "U2") ∧
    searchSimilar
        (⟨[⟨"D2", "T2", "g.txt", "txt", "hi", 2, 0, "U2"⟩],
          [⟨"D2", "hi", (), 0, ⟨"g.txt", 2, 1, false⟩⟩]⟩ : KBState Unit)
        (fun _ => 0) 5 0 (some "U1") = [] := by
  refine ⟨?_, ?_, ?_⟩
  · intro E st dist limit thr
    simp [searchSimilar]
  · refine ⟨⟨⟨"D2", "hi", (), 0, ⟨"g.txt", 2, 1, false⟩⟩,
      ⟨"D2", "T2", "g.txt", "txt", "hi", 2, 0, "U2"⟩, 1 - 0⟩, ?_, rfl⟩
    norm_num [searchSimilar, joinRows, sortDesc, insertDesc]
  · norm_num [searchSimilar, joinRows, sortDesc, insertDesc]

/-- **C5**: `deleteDocument(id, owner)` removes the document only when it
belongs to the owner and never errors (it is a total function of the state;
when the id is absent or foreign the state is unchanged — idempotent for
the caller).  Afterwards `listDocuments(owner)` never includes the id, and
— whenever every chunk pointing at the id had a parent row owned by the
caller, as the cascade foreign key guarantees — `getChunks(id)` is empty. -/
theorem deleteDocument_scoped_idempotent_cascade {E : Type} (st : KBState E)
    (documentId userId : String) :
    documentId ∉
      (getDocuments (deleteDocument st documentId userId) userId).map
        (fun d => d.id) ∧
    ((∀ d ∈ st.documents, ¬(d.id = documentId ∧ d.userId = userId)) →
      deleteDocument st documentId userId = st) ∧
    ((∀ c ∈ st.chunks, c.documentId = documentId →
        ∃ d ∈ st.documents, d.id = documentId ∧ d.userId = userId) →
      getDocumentChunks (deleteDocument st documentId userId) documentId = []) := by
  refine ⟨?_, ?_, ?_⟩
  · intro hmem
    rw [List.mem_map] at hmem
    obtain ⟨d, hd, hid⟩ := hmem
    rw [getDocuments, mem_sortDesc, List.mem_filter] at hd
    obtain ⟨hdel, hu⟩ := hd
    simp only [deleteDocument, List.mem_filter] at hdel
    obtain ⟨_, hkeep⟩ := hdel
    have hu' : d.userId = userId := by simpa using hu
    simp [hid, hu'] at hkeep
  · intro h
    unfold deleteDocument
    have hdocs : st.documents.filter
        (fun d => !(d.id == documentId && d.userId == userId)) = st.documents := by
      rw [List.filter_eq_self]
      intro d hd
      have hnd := h d hd
      simp only [Bool.not_eq_true', Bool.eq_false_iff, ne_eq, Bool.and_eq_true,
        beq_iff_eq]
      exact hnd
    have hch : st.chunks.filter
        (fun c => !(st.documents.any fun d =>
          d.id == documentId && d.userId == userId && c.documentId == d.id)) =
        st.chunks := by
      rw [List.filter_eq_self]
      intro c _
      simp only [Bool.not_eq_true', List.any_eq_false]
      intro d hd
      have hnd := h d hd
      simp only [Bool.and_eq_true, beq_iff_eq]
      tauto
    rw [hdocs, hch]
  · intro h
    unfold getDocumentChunks
    have : (deleteDocument st documentId userId).chunks.filter
        (fun c => c.documentId == documentId) = [] := by
      rw [List.filter_eq_nil_iff]
      intro c hc
      simp only [deleteDocument, List.mem_filter] at hc
      obtain ⟨hcs, hkeep⟩ := hc
      simp only [Bool.not_eq_true', List.any_eq_false] at hkeep
      intro hcd
      have hcd' : c.documentId = documentId := by simpa using hcd
      obtain ⟨d, hd, hdid, hdu⟩ := h c hcs hcd'
      have := hkeep d hd
      rw [Bool.and_eq_true, Bool.and_eq_true] at this
      simp only [beq_iff_eq] at this
      exact this ⟨⟨hdid, hdu⟩, hcd'.trans hdid.symm⟩
    rw [this]
    rfl

/-- Witness for C5: a matching owner's delete cascades to an empty chunk
list, and a delete with a non-matching id leaves the store unchanged. -/
theorem deleteDocument_scoped_idempotent_cascade_witness :
    deleteDocument
        (⟨[⟨"D1", "T", "f.txt", "txt", "hello", 5, 0, "U1"⟩], []⟩ : KBState Unit)
        "D9" "U1" =
      (⟨[⟨"D1", "T", "f.txt", "txt", "hello", 5, 0, "U1"⟩], []⟩ : KBState Unit) ∧
    getDocumentChunks
        (deleteDocument
          (⟨[⟨"D1", "T", "f.txt", "txt", "hello", 5, 0, "U1"⟩],
            [⟨"D1", "hello", (), 0, ⟨"f.txt", 5, 1, false⟩⟩]⟩ : KBState Unit)
          "D1" "U1") "D1" = [] :=
  ⟨(deleteDocument_scoped_idempotent_cascade
      (⟨[⟨"D1", "T", "f.txt", "txt", "hello", 5, 0, "U1"⟩], []⟩ : KBState Unit)
      "D9" "U1").2.1 (by decide),
   (deleteDocument_scoped_idempotent_cascade
      (⟨[⟨"D1", "T", "f.txt", "txt", "hello", 5, 0, "U1"⟩],
        [⟨"D1", "hello", (), 0, ⟨"f.txt", 5, 1, false⟩⟩]⟩ : KBState Unit)
      "D1" "U1").2.2 (by decide)⟩

/-- **C2**: `addDocument` is *not* atomic.  The chunk inserts are separate
statements after the document insert, with no surrounding transaction: when
the database fails on the second of two chunk inserts, the call throws
`Failed to add document to knowledge base` yet leaves the store holding the
document row together with only the first chunk — a partial write the claim
rules out. -/
theorem addDocument_partial_write_on_midloop_failure :
    addDocument (⟨[], []⟩ : KBState Unit)
      (.ok ⟨"hello world",
        [⟨"hello", (), 0, ⟨"f.txt", 5, 2, false⟩⟩,
         ⟨"world", (), 1, ⟨"f.txt", 5, 2, false⟩⟩],
        ⟨"f.txt", "txt", 11, 2⟩⟩)
      "D1" 7 (some 1) "f.txt" "txt" "T" "U1" =
    (.error "Failed to add document to knowledge base",
     ⟨[⟨"D1", "T", "f.txt", "txt", "hello world", 11, 7, "U1"⟩],
      [⟨"D1", "hello", (), 0, ⟨"f.txt", 5, 2, false⟩⟩]⟩) := rfl

/-- **C3**: the embed operation never raises and always lands on a vector:
whenever every configured backend model fails it falls through to the
hash-based fallback (for `embedQuery` and likewise for the per-chunk
embedding step of `createChunks`, which then tags the chunk
`fallback: true`), and the returned vector has the fixed dimensionality 384
whenever the backends honour their interface (the fallback itself always
does). -/
theorem embedQuery_total_fixed_dim_fallback :
    (∀ (attempts : List (Option (HFResult ℝ))) (query : String),
      (∀ r : HFResult ℝ, some r ∈ attempts → (flattenEmbedding r).length = 384) →
      (embedQuery attempts query).length = 384) ∧
    (∀ (attempts : List (Option (HFResult ℝ))) (query : String),
      (∀ a ∈ attempts, a = none) →
      embedQuery attempts query = createHashBasedEmbedding query) ∧
    (∀ (oracle : ℕ → List (Option (HFResult ℝ))) (content filename : String)
       (i : ℕ) (c : ChunkData (List ℝ)),
      (createChunks oracle content filename)[i]? = some c →
      (∀ a ∈ oracle i, a = none) →
      c.embedding = createHashBasedEmbedding c.content ∧
        c.metadata.fallback = true ∧ c.embedding.length = 384) := by
  refine ⟨?_, ?_, ?_⟩
  · intro attempts query h
    cases hfs : attempts.findSome? id with
    | none => simp [embedQuery, hfs, createHashBasedEmbedding_length]
    | some r =>
      have : (embedQuery attempts query) = flattenEmbedding r := by
        simp [embedQuery, hfs]
      rw [this]
      exact h r (findSome?_id_mem hfs)
  · intro attempts query h
    have hfs : attempts.findSome? id = none := by
      rw [List.findSome?_eq_none_iff]
      intro x hx
      rw [h x hx]
      rfl
    simp [embedQuery, hfs]
  · intro oracle content filename i c hget hnone
    have hfs : (oracle i).findSome? id = none := by
      rw [List.findSome?_eq_none_iff]
      intro x hx
      rw [hnone x hx]
      rfl
    simp only [createChunks, getElem?_mapWithIndex] at hget
    cases hsp : (splitText content)[i]? with
    | none => rw [hsp] at hget; simp at hget
    | some t =>
      rw [hsp] at hget
      simp only [Option.map_some', hfs, Option.some_inj] at hget
      rw [← hget]
      exact ⟨rfl, rfl, createHashBasedEmbedding_length t⟩

/-- Witness for C3: no backend attempts at all, and a single failing
attempt, at the empty query string. -/
theorem embedQuery_total_fixed_dim_fallback_witness :
    (embedQuery [] "").length = 384 ∧
    embedQuery [none] "" = createHashBasedEmbedding "" :=
  ⟨embedQuery_total_fixed_dim_fallback.1 [] ""
     (fun r hr => absurd hr (by simp)),
   embedQuery_total_fixed_dim_fallback.2.1 [none] "" (by simp)⟩

/-- The `txt` case of `processDocument`: the content is the decoded buffer
verbatim. -/
theorem processDocument_txt (buffer : String) (byteSize : ℕ) (pdf : PdfParse)
    (ocr : Except String String) (oracle : ℕ → List (Option (HFResult ℝ)))
    (filename : String) :
    processDocument buffer byteSize pdf ocr oracle filename "txt" =
      .ok ⟨buffer, createChunks oracle buffer filename,
        ⟨filename, "txt", byteSize,
         (createChunks oracle buffer filename).length⟩⟩ := by
  have h1 : jsToLower "txt" = "txt" := rfl
  simp [processDocument, h1]

/-- Splitting the empty content produces no chunks at all. -/
theorem createChunks_empty (oracle : ℕ → List (Option (HFResult ℝ)))
    (filename : String) : createChunks oracle "" filename = [] := rfl

/-- **C6**: `reprocessDocument(id, owner)` fails when no document with that
id is owned by the owner (the not-found throw, surfaced through the catch as
`Failed to reprocess document`); when the document is found it deletes the
old chunks, overwrites the content with the explanatory placeholder — it
does not re-extract from the original bytes — and stores the chunks
regenerated from that placeholder text. -/
theorem reprocessDocument_notfound_placeholder (st : KBState (List ℝ))
    (oracle : ℕ → List (Option (HFResult ℝ))) (documentId userId : String) :
    (st.documents.find? (fun d => d.id == documentId && d.userId == userId) = none →
      reprocessDocument st oracle documentId userId =
        .error "Failed to reprocess document") ∧
    (∀ document,
      st.documents.find? (fun d => d.id == documentId && d.userId == userId) =
        some document →
      reprocessDocument st oracle documentId userId = .ok
        ⟨st.documents.map (fun d =>
           if d.id == documentId then
             ⟨d.id, d.title, d.filename, d.fileType,
              reprocessPlaceholder document.filename, d.fileSize,
              d.uploadedAt, d.userId⟩
           else d),
         (st.chunks.filter fun c => !(c.documentId == documentId)) ++
           (createChunks oracle (reprocessPlaceholder document.filename)
             document.filename).map (fun c =>
               ⟨document.id, c.content, c.embedding, c.chunkIndex,
                c.metadata⟩)⟩) := by
  constructor
  · intro h
    simp [reprocessDocument, h]
  · intro document h
    simp only [reprocessDocument, h]
    rw [processDocument_txt]

/-- Witness for C6: a one-document store owned by `U1`, and the not-found
path on an empty store. -/
theorem reprocessDocument_notfound_placeholder_witness :
    reprocessDocument (⟨[], []⟩ : KBState (List ℝ)) (fun _ => []) "D1" "U1" =
      .error "Failed to reprocess document" ∧
    reprocessDocument
        (⟨[⟨"D1", "T", "f.pdf", "pdf", "old", 3, 0, "U1"⟩], []⟩ :
          KBState (List ℝ)) (fun _ => []) "D1" "U1" = .ok
      ⟨[⟨"D1", "T", "f.pdf", "pdf", "old", 3, 0, "U1"⟩].map (fun d =>
         if d.id == "D1" then
           ⟨d.id, d.title, d.filename, d.fileType,
            reprocessPlaceholder "f.pdf", d.fileSize, d.uploadedAt, d.userId⟩
         else d),
       ([] : List (ChunkRow (List ℝ))).filter
           (fun c => !(c.documentId == "D1")) ++
         (createChunks (fun _ => []) (reprocessPlaceholder "f.pdf")
           "f.pdf").map (fun c =>
             ⟨"D1", c.content, c.embedding, c.chunkIndex, c.metadata⟩)⟩ :=
  ⟨(reprocessDocument_notfound_placeholder (⟨[], []⟩ : KBState (List ℝ))
      (fun _ => []) "D1" "U1").1 rfl,
   (reprocessDocument_notfound_placeholder
      (⟨[⟨"D1", "T", "f.pdf", "pdf", "old", 3, 0, "U1"⟩], []⟩ :
        KBState (List ℝ)) (fun _ => []) "D1" "U1").2
     ⟨"D1", "T", "f.pdf", "pdf", "old", 3, 0, "U1"⟩ rfl⟩

/-- **C7**: the chunker's split is a pure function of the text (a Lean
function, so two calls agree definitionally) with the degenerate behaviour
the spec fixes: empty text yields zero chunks, and non-empty text shorter
than the configured chunk size 1000 yields exactly one chunk equal to the
whole text; consequently ingesting a zero-byte `txt` upload still creates
the document row with empty content and inserts no chunk rows at all. -/
theorem splitText_degenerate_and_empty_upload :
    splitText "" = [] ∧
    (∀ t : String, t ≠ "" → t.length < 1000 → splitText t = [t]) ∧
    (∀ (pdf : PdfParse) (ocr : Except String String)
       (oracle : ℕ → List (Option (HFResult ℝ))),
      addDocument (⟨[], []⟩ : KBState (List ℝ))
        (processDocument "" 0 pdf ocr oracle "empty.txt" "txt") "D1" 0 none
        "empty.txt" "txt" "T" "U1" =
      (.ok ⟨"D1", "T", "empty.txt", "txt", "", 0, 0, "U1"⟩,
       ⟨[⟨"D1", "T", "empty.txt", "txt", "", 0, 0, "U1"⟩], []⟩)) := by
  refine ⟨rfl, ?_, ?_⟩
  · intro t ht hlen
    rw [splitText]
    rw [if_neg (fun h0 => ht ((string_length_eq_zero_iff t).mp h0))]
    rw [if_pos (le_of_lt hlen)]
  · intro pdf ocr oracle
    rw [processDocument_txt, createChunks_empty]
    rfl

/-- Witness for C7 at a concrete short text. -/
theorem splitText_degenerate_and_empty_upload_witness :
    splitText "hello" = ["hello"] :=
  splitText_degenerate_and_empty_upload.2.1 "hello" (by decide) (by decide)

/-- **C8**: a parsed PDF with no recoverable text does not fail extraction —
the result is the human-readable placeholder that names the input's byte
size — while a declared file kind outside `pdf`, `txt`, `image` makes
`processDocument` fail with the `Unsupported file type` error. -/
theorem processPDF_placeholder_and_unsupported_kind :
    (∀ (byteSize : ℕ) (pages : Option (List (List (List String)))),
      (jsTrim (extractPdfText pages)).length = 0 →
      processPDF byteSize (.dataReady pages) = .ok (emptyPdfMessage byteSize)) ∧
    (∀ (buffer : String) (byteSize : ℕ) (pdf : PdfParse)
       (ocr : Except String String)
       (oracle : ℕ → List (Option (HFResult ℝ))) (filename fileType : String),
      jsToLower fileType ∉ (["pdf", "txt", "image"] : List String) →
      processDocument buffer byteSize pdf ocr oracle filename fileType =
        .error ("Unsupported file type: " ++ fileType)) := by
  constructor
  · intro byteSize pages h
    simp only [processPDF]
    rw [if_pos h]
  · intro buffer byteSize pdf ocr oracle filename fileType h
    simp only [List.mem_cons, List.not_mem_nil, or_false, not_or] at h
    obtain ⟨h1, h2, h3⟩ := h
    simp only [processDocument, if_neg h1, if_neg h2, if_neg h3]

/-- Witness for C8: a ready parse with absent `Pages` (7 input bytes), and
the declared kind `docx`. -/
theorem processPDF_placeholder_and_unsupported_kind_witness :
    processPDF 7 (.dataReady none) = .ok (emptyPdfMessage 7) ∧
    processDocument "x" 1 .dataError (.ok "") (fun _ => []) "f.docx" "docx" =
      .error ("Unsupported file type: " ++ "docx") :=
  ⟨processPDF_placeholder_and_unsupported_kind.1 7 none rfl,
   processPDF_placeholder_and_unsupported_kind.2 "x" 1 .dataError (.ok "")
     (fun _ => []) "f.docx" "docx" (by decide)⟩

/-- **C9**: the search tool boundary never lets anything escape: every path
returns a structured value; a missing session, an internal search failure
and an empty result set all come back as `success: false` with an
explanatory message and an empty result list, while on success each entry
carries the 1-based rank, the chunk content, the source title, the source
filename, and the similarity rounded (JavaScript `Math.round`) to an
integer percentage. -/
theorem searchTool_boundary_shape {E : Type} (session : Option String)
    (st : KBState E) (dist : E → ℚ) (searchFails : Bool) (query : String)
    (limit : ℕ) :
    (session = none →
      executeSearchTool session st dist searchFails query limit =
        ⟨false, "Authentication required", [], none, [], none⟩) ∧
    (∀ u, session = some u → searchFails = true →
      executeSearchTool session st dist searchFails query limit =
        ⟨false, "Error searching documents", [], none, [], none⟩) ∧
    (∀ u, session = some u → searchFails = false →
      searchSimilar st dist limit (1/5) (some u) = [] →
      executeSearchTool session st dist searchFails query limit =
        ⟨false, "No relevant information found in uploaded documents.", [],
         none, [], none⟩) ∧
    (∀ u, session = some u → searchFails = false →
      searchSimilar st dist limit (1/5) (some u) ≠ [] →
      (executeSearchTool session st dist searchFails query limit).success =
          true ∧
        (executeSearchTool session st dist searchFails query limit).results =
          mapWithIndex (fun i r =>
            ⟨i + 1, r.chunk.content, r.document.title, r.document.filename,
             jsRound (r.similarity * 100)⟩)
            (searchSimilar st dist limit (1/5) (some u))) := by
  refine ⟨?_, ?_, ?_, ?_⟩
  · intro h
    rw [h]
    rfl
  · intro u hu hf
    rw [hu, hf]
    rfl
  · intro u hu hf hres
    rw [hu, hf]
    simp only [executeSearchTool]
    rw [hres]
    rfl
  · intro u hu hf hres
    rw [hu, hf]
    have hie : (searchSimilar st dist limit (1/5) (some u)).isEmpty = false := by
      rw [Bool.eq_false_iff]
      intro hx
      exact hres (List.isEmpty_iff.mp hx)
    constructor
    · simp only [executeSearchTool]
      rw [hie]
      simp
    · simp only [executeSearchTool]
      rw [hie]
      simp

/-- Witness for C9: the unauthenticated path and the empty-store path. -/
theorem searchTool_boundary_shape_witness :
    executeSearchTool none (⟨[], []⟩ : KBState Unit) (fun _ => 0) false "q" 5 =
      ⟨false, "Authentication required", [], none, [], none⟩ ∧
    executeSearchTool (some "U1") (⟨[], []⟩ : KBState Unit) (fun _ => 0)
        false "q" 5 =
      ⟨false, "No relevant information found in uploaded documents.", [],
       none, [], none⟩ :=
  ⟨(searchTool_boundary_shape none (⟨[], []⟩ : KBState Unit) (fun _ => 0)
      false "q" 5).1 rfl,
   (searchTool_boundary_shape (some "U1") (⟨[], []⟩ : KBState Unit)
      (fun _ => 0) false "q" 5).2.2.1 "U1" rfl rfl rfl⟩
